/-
Verification of the TrouDeVer proxy (src/src/main.rs) against its design
specification.  The source is shallowly embedded: bytes are `Nat` (0..255),
chunks are `List Nat`, the JSON sniffing performed by
`serde_json::Deserializer::from_slice(..).into_iter::<Value>()` is embedded as
an executable parser, and the I/O performed by the forwarding loop is recorded
as explicit lists of operations, with fallible operations driven by injected
`Option String` error outcomes (none = success, some e = failure with message e).
-/
import Mathlib

namespace TrouDeVer

/-- The event type sent from the proxy task to the UI (`enum ProxyEvent`). -/
inductive ProxyEvent where
  | Log (msg : String)
  | Status (msg : String)
  | RoomCode (code : String)
  | Stopped
deriving DecidableEq, Repr

/-- An operation performed on the TCP write half: `write_all(bytes)` or `flush()`. -/
inductive TcpOp where
  | writeBytes (bs : List Nat)
  | flushTcp
deriving DecidableEq, Repr

/-- A WebSocket message handed to `ws_write.send`.  `Message::Text` carries a
Rust `String` whose UTF-8 byte content is exactly `bytes`; `Message::Binary`
carries `bytes` directly.  In both cases the payload is byte-identical to the
constructor argument. -/
inductive WsMsg where
  | text (bytes : List Nat)
  | binary (bytes : List Nat)
deriving DecidableEq, Repr

/- ### UTF-8 (Rust `std::str::from_utf8` validation, used by `serde_json`
   for string contents and by the chunk-forwarding Text/Binary decision). -/

/-- A UTF-8 continuation byte: `0x80 ≤ b ≤ 0xBF`. -/
def isCont (b : Nat) : Bool := 0x80 ≤ b && b ≤ 0xBF

/-- Decode one UTF-8 encoded scalar value from the front of a byte list,
returning the code point and the remaining bytes.  This is exactly the
validation table of Rust core (`core::str::validations`): overlong encodings,
surrogate code points and values above 0x10FFFF are rejected. -/
def utf8DecodeChar : List Nat → Option (Nat × List Nat)
  | [] => none
  | b0 :: rest =>
    if b0 ≤ 0x7F then some (b0, rest)
    else if 0xC2 ≤ b0 && b0 ≤ 0xDF then
      match rest with
      | b1 :: r =>
        if isCont b1 then some ((b0 - 0xC0) * 0x40 + (b1 - 0x80), r) else none
      | _ => none
    else if b0 == 0xE0 then
      match rest with
      | b1 :: b2 :: r =>
        if (0xA0 ≤ b1 && b1 ≤ 0xBF) && isCont b2 then
          some (((b0 - 0xE0) * 0x40 + (b1 - 0x80)) * 0x40 + (b2 - 0x80), r)
        else none
      | _ => none
    else if (0xE1 ≤ b0 && b0 ≤ 0xEC) || b0 == 0xEE || b0 == 0xEF then
      match rest with
      | b1 :: b2 :: r =>
        if isCont b1 && isCont b2 then
          some (((b0 - 0xE0) * 0x40 + (b1 - 0x80)) * 0x40 + (b2 - 0x80), r)
        else none
      | _ => none
    else if b0 == 0xED then
      match rest with
      | b1 :: b2 :: r =>
        if (0x80 ≤ b1 && b1 ≤ 0x9F) && isCont b2 then
          some (((b0 - 0xE0) * 0x40 + (b1 - 0x80)) * 0x40 + (b2 - 0x80), r)
        else none
      | _ => none
    else if b0 == 0xF0 then
      match rest with
      | b1 :: b2 :: b3 :: r =>
        if (0x90 ≤ b1 && b1 ≤ 0xBF) && isCont b2 && isCont b3 then
          some ((((b0 - 0xF0) * 0x40 + (b1 - 0x80)) * 0x40 + (b2 - 0x80)) * 0x40 + (b3 - 0x80), r)
        else none
      | _ => none
    else if 0xF1 ≤ b0 && b0 ≤ 0xF3 then
      match rest with
      | b1 :: b2 :: b3 :: r =>
        if isCont b1 && isCont b2 && isCont b3 then
          some ((((b0 - 0xF0) * 0x40 + (b1 - 0x80)) * 0x40 + (b2 - 0x80)) * 0x40 + (b3 - 0x80), r)
        else none
      | _ => none
    else if b0 == 0xF4 then
      match rest with
      | b1 :: b2 :: b3 :: r =>
        if (0x80 ≤ b1 && b1 ≤ 0x8F) && isCont b2 && isCont b3 then
          some ((((b0 - 0xF0) * 0x40 + (b1 - 0x80)) * 0x40 + (b2 - 0x80)) * 0x40 + (b3 - 0x80), r)
        else none
      | _ => none
    else none

/-- Decode a whole byte list as UTF-8 code points (fuel-indexed; each decoded
character consumes at least one byte, so `bs.length` fuel always suffices). -/
def utf8DecodeCpsAux : Nat → List Nat → Option (List Nat)
  | _, [] => some []
  | 0, _ :: _ => none
  | fuel + 1, bs =>
    match utf8DecodeChar bs with
    | none => none
    | some (c, rest) => (utf8DecodeCpsAux fuel rest).map (fun cs => c :: cs)

/-- The code points of a byte list, when it is valid UTF-8. -/
def utf8DecodeCps (bs : List Nat) : Option (List Nat) := utf8DecodeCpsAux bs.length bs

/-- Validity check `std::str::from_utf8(bs).is_ok()`. -/
def utf8Valid (bs : List Nat) : Bool := (utf8DecodeCps bs).isSome

/-- Build a Lean `String` from a list of (valid) code points. -/
def cpsToString (cps : List Nat) : String := String.mk (cps.map Char.ofNat)

/- ### JSON values and the `serde_json` stream parser.
   `run_proxy_logic` feeds each raw TCP chunk to
   `serde_json::Deserializer::from_slice(chunk).into_iter::<Value>()` and
   iterates.  We embed the subset of `serde_json` this exercises: parsing a
   byte slice as a sequence of whitespace-separated JSON values, yielding the
   values parsed before the first syntax error. -/

/-- A parsed JSON value (`serde_json::Value`).  Numbers keep their raw lexeme:
the proxy never inspects numeric values, only key presence and string
payloads. -/
inductive Json where
  | null
  | bool (b : Bool)
  | num (raw : List Nat)
  | str (s : String)
  | arr (elts : List Json)
  | obj (fields : List (String × Json))

instance : Inhabited Json := ⟨Json.null⟩

/-- JSON insignificant whitespace (`serde_json`: space, newline, tab, CR). -/
def isJsonWs (b : Nat) : Bool := b == 0x20 || b == 0x0A || b == 0x09 || b == 0x0D

/-- Drop leading JSON whitespace (`Deserializer::parse_whitespace`). -/
def skipWs : List Nat → List Nat
  | [] => []
  | b :: rest => if isJsonWs b then skipWs rest else b :: rest

/-- ASCII decimal digit. -/
def isDigit (b : Nat) : Bool := 0x30 ≤ b && b ≤ 0x39

/-- Value of an ASCII hex digit, if it is one. -/
def hexDigitVal (b : Nat) : Option Nat :=
  if 0x30 ≤ b && b ≤ 0x39 then some (b - 0x30)
  else if 0x61 ≤ b && b ≤ 0x66 then some (b - 0x61 + 10)
  else if 0x41 ≤ b && b ≤ 0x46 then some (b - 0x41 + 10)
  else none

/-- Read exactly four hex digits (the `XXXX` of a `\uXXXX` escape). -/
def parseHex4 : List Nat → Option (Nat × List Nat)
  | b0 :: b1 :: b2 :: b3 :: rest =>
    match hexDigitVal b0, hexDigitVal b1, hexDigitVal b2, hexDigitVal b3 with
    | some d0, some d1, some d2, some d3 =>
      some (((d0 * 16 + d1) * 16 + d2) * 16 + d3, rest)
    | _, _, _, _ => none
  | _ => none

/-- Decode one string escape, positioned just after the backslash.  Returns the
escaped code point.  `\uXXXX` leading surrogates must be followed by a trailing
surrogate escape (combined into one supplementary code point); lone surrogates
are errors, as in `serde_json`. -/
def parseEscape : List Nat → Option (Nat × List Nat)
  | [] => none
  | b :: rest =>
    if b == 0x22 then some (0x22, rest)
    else if b == 0x5C then some (0x5C, rest)
    else if b == 0x2F then some (0x2F, rest)
    else if b == 0x62 then some (0x08, rest)
    else if b == 0x66 then some (0x0C, rest)
    else if b == 0x6E then some (0x0A, rest)
    else if b == 0x72 then some (0x0D, rest)
    else if b == 0x74 then some (0x09, rest)
    else if b == 0x75 then
      match parseHex4 rest with
      | none => none
      | some (n, r) =>
        if n < 0xD800 || 0xE000 ≤ n then some (n, r)
        else if n < 0xDC00 then
          match r with
          | 0x5C :: 0x75 :: r2 =>
            match parseHex4 r2 with
            | some (m, r3) =>
              if 0xDC00 ≤ m && m < 0xE000 then
                some (0x10000 + (n - 0xD800) * 0x400 + (m - 0xDC00), r3)
              else none
            | none => none
          | _ => none
        else none
    else none

/-- Parse the body of a JSON string (positioned after the opening quote) into
code points, consuming the closing quote.  Unescaped control characters
(< 0x20) are errors; raw bytes must be valid UTF-8 (`serde_json` validates
string contents when deserializing from a slice). -/
def parseStringCps : Nat → List Nat → Option (List Nat × List Nat)
  | 0, _ => none
  | _, [] => none
  | fuel + 1, b :: rest =>
    if b == 0x22 then some ([], rest)
    else if b == 0x5C then
      match parseEscape rest with
      | some (c, r) => (parseStringCps fuel r).map (fun p => (c :: p.1, p.2))
      | none => none
    else if b < 0x20 then none
    else
      match utf8DecodeChar (b :: rest) with
      | some (c, r) => (parseStringCps fuel r).map (fun p => (c :: p.1, p.2))
      | none => none

/-- Longest leading run of decimal digits. -/
def digitSpan : List Nat → List Nat × List Nat
  | [] => ([], [])
  | b :: rest =>
    if isDigit b then
      let p := digitSpan rest
      (b :: p.1, p.2)
    else ([], b :: rest)

/-- Lex one JSON number per the JSON grammar
(`-? (0 | [1-9][0-9]*) (\.[0-9]+)? ([eE][+-]?[0-9]+)?`), returning its raw
lexeme.  The input starts at the sign or first digit. -/
def parseNumber (bs : List Nat) : Option (List Nat × List Nat) :=
  let signPart : List Nat × List Nat :=
    match bs with
    | 0x2D :: rest => ([0x2D], rest)
    | _ => ([], bs)
  match signPart.2 with
  | [] => none
  | b :: rest =>
    if b == 0x30 then some (signPart.1 ++ [b], rest)
    else if isDigit b then
      let p := digitSpan rest
      some (signPart.1 ++ b :: p.1, p.2)
    else none

/-- Continue a number lexeme with an optional fraction part. -/
def parseFrac (lex : List Nat) (bs : List Nat) : Option (List Nat × List Nat) :=
  match bs with
  | 0x2E :: rest =>
    match digitSpan rest with
    | ([], _) => none
    | (ds, r) => some (lex ++ 0x2E :: ds, r)
  | _ => some (lex, bs)

/-- Continue a number lexeme with an optional exponent part. -/
def parseExp (lex : List Nat) (bs : List Nat) : Option (List Nat × List Nat) :=
  match bs with
  | b :: rest =>
    if b == 0x65 || b == 0x45 then
      let signed : List Nat × List Nat :=
        match rest with
        | s :: r2 => if s == 0x2B || s == 0x2D then ([s], r2) else ([], rest)
        | [] => ([], [])
      match digitSpan signed.2 with
      | ([], _) => none
      | (ds, r) => some (lex ++ b :: (signed.1 ++ ds), r)
    else some (lex, b :: rest)
  | [] => some (lex, [])

/-- Lex a complete JSON number (integer, fraction, exponent). -/
def parseNumberFull (bs : List Nat) : Option (List Nat × List Nat) :=
  match parseNumber bs with
  | none => none
  | some (lex, r) =>
    match parseFrac lex r with
    | none => none
    | some (lex2, r2) => parseExp lex2 r2

/-- Parser mode: a whole value, the fields of an object after `{`, or the
elements of an array after `[` (with the fields/elements parsed so far). -/
inductive PMode where
  | value
  | objFirst
  | objFields (acc : List (String × Json))
  | arrFirst
  | arrElems (acc : List Json)

/-- The recursive core of the JSON value parser.  `depth` embeds the
recursion limit of `serde_json` (`Deserializer::remaining_depth`, initially
128): entering a `{` or `[` decrements it and errors when the decremented
value reaches zero (the `check_recursion!` macro decrements before testing),
so nesting of depth 128 or more is a `RecursionLimitExceeded` error while
depth up to 127 parses; the counter is restored on exit, which functional
threading gives for free.  `fuel` only forces termination and is never the
binding constraint: every recursive call either consumes an input byte or
belongs to a chain of at most three byte-free calls
(`objFirst → objFields` and `arrFirst → arrElems → value`), so the
`4 * (length + 1)` fuel supplied by `parseValue` cannot run out before the
input does.  `objFirst`/`arrFirst` sit just after the opening bracket and
admit the empty object/array; `objFields`/`arrElems` parse one member and
then dispatch on the `,`/closing byte, exactly as the deserializer of
`serde_json` does. -/
def parseCore : Nat → Nat → PMode → List Nat → Option (Json × List Nat)
  | 0, _, _, _ => none
  | fuel + 1, depth, PMode.value, bs =>
    match skipWs bs with
    | [] => none
    | b :: rest =>
      if b == 0x7B then
        if depth ≤ 1 then none else parseCore fuel (depth - 1) PMode.objFirst rest
      else if b == 0x5B then
        if depth ≤ 1 then none else parseCore fuel (depth - 1) PMode.arrFirst rest
      else if b == 0x22 then
        (parseStringCps (rest.length + 1) rest).map
          (fun p => (Json.str (cpsToString p.1), p.2))
      else if b == 0x74 then
        match rest with
        | 0x72 :: 0x75 :: 0x65 :: r => some (Json.bool true, r)
        | _ => none
      else if b == 0x66 then
        match rest with
        | 0x61 :: 0x6C :: 0x73 :: 0x65 :: r => some (Json.bool false, r)
        | _ => none
      else if b == 0x6E then
        match rest with
        | 0x75 :: 0x6C :: 0x6C :: r => some (Json.null, r)
        | _ => none
      else if b == 0x2D || isDigit b then
        (parseNumberFull (b :: rest)).map (fun p => (Json.num p.1, p.2))
      else none
  | fuel + 1, depth, PMode.objFirst, bs =>
    match skipWs bs with
    | 0x7D :: r => some (Json.obj [], r)
    | other => parseCore fuel depth (PMode.objFields []) other
  | fuel + 1, depth, PMode.objFields acc, bs =>
    match skipWs bs with
    | 0x22 :: r =>
      match parseStringCps (r.length + 1) r with
      | none => none
      | some (kcps, r2) =>
        match skipWs r2 with
        | 0x3A :: r3 =>
          match parseCore fuel depth PMode.value r3 with
          | none => none
          | some (v, r4) =>
            match skipWs r4 with
            | 0x2C :: r5 =>
              parseCore fuel depth (PMode.objFields (acc ++ [(cpsToString kcps, v)])) r5
            | 0x7D :: r5 => some (Json.obj (acc ++ [(cpsToString kcps, v)]), r5)
            | _ => none
        | _ => none
    | _ => none
  | fuel + 1, depth, PMode.arrFirst, bs =>
    match skipWs bs with
    | 0x5D :: r => some (Json.arr [], r)
    | other => parseCore fuel depth (PMode.arrElems []) other
  | fuel + 1, depth, PMode.arrElems acc, bs =>
    match parseCore fuel depth PMode.value bs with
    | none => none
    | some (v, r) =>
      match skipWs r with
      | 0x2C :: r2 => parseCore fuel depth (PMode.arrElems (acc ++ [v])) r2
      | 0x5D :: r2 => some (Json.arr (acc ++ [v]), r2)
      | _ => none

/-- Parse one JSON value from the front of a byte list, with the full initial
recursion budget of `serde_json` (`remaining_depth = 128`) and fuel that the
input length makes sufficient (see `parseCore`). -/
def parseValue (bs : List Nat) : Option (Json × List Nat) :=
  parseCore (4 * (bs.length + 1)) 128 PMode.value bs

/-- A value whose first byte makes it self-delineating (`[`, `"`, `{`): the
stream deserializer performs no end-of-value check after such values. -/
def selfDelineated (b : Nat) : Bool := b == 0x5B || b == 0x22 || b == 0x7B

/-- The check `StreamDeserializer::peek_end_of_value`: after a non-self-delineating value
(number, `true`, `false`, `null`) the next byte must be end-of-input,
whitespace or a structural character, otherwise the value is replaced by a
trailing-characters error. -/
def endOfValueOk : List Nat → Bool
  | [] => true
  | b :: _ =>
    b == 0x20 || b == 0x0A || b == 0x09 || b == 0x0D || b == 0x22 || b == 0x5B ||
    b == 0x5D || b == 0x7B || b == 0x7D || b == 0x2C || b == 0x3A

/-- The sequence of `Ok` values yielded by
`Deserializer::from_slice(bs).into_iter::<Value>()`: values are parsed from
the front, whitespace-separated; the first syntax error ends the iteration
(the error item is skipped by the `if let Ok(value) = json` in the loop). -/
def parseStreamAux : Nat → List Nat → List Json
  | 0, _ => []
  | fuel + 1, bs =>
    match skipWs bs with
    | [] => []
    | b :: rest =>
      match parseValue (b :: rest) with
      | none => []
      | some (v, r) =>
        if selfDelineated b then v :: parseStreamAux fuel r
        else if endOfValueOk r then v :: parseStreamAux fuel r
        else []

/-- All control records and payload values successfully parsed from one raw
TCP chunk. -/
def parseStream (bs : List Nat) : List Json := parseStreamAux (bs.length + 1) bs

/- ### Control-record sniffing and the chunk forwarding decision
   (`run_proxy_logic`, TCP → WebSocket branch, `Ok(n)` case). -/

/-- Key lookup `Value::get(key)`: lookup on an object, `None` on any other value.
With duplicate keys the later insertion wins, as in `serde_json`s map. -/
def jsonGet (v : Json) (key : String) : Option Json :=
  match v with
  | Json.obj fields => fields.foldl (fun acc kv => if kv.1 == key then some kv.2 else acc) none
  | _ => none

/-- String projection `Value::as_str()`. -/
def asStr : Json → Option String
  | Json.str s => some s
  | _ => none

/-- Whether a parsed record carries the control marker:
`value.get("internal")` is `Some(_)`. -/
def hasInternal (v : Json) : Bool := (jsonGet v "internal").isSome

/-- The room code of a record: `value.get("room").and_then(|v| v.as_str())`. -/
def roomOf (v : Json) : Option String := (jsonGet v "room").bind asStr

/-- The events the sniffing loop emits for one parsed record: a control record
with a string-valued room code yields `RoomCode` then the log line; any other
record yields nothing. -/
def recordEvents (v : Json) : List ProxyEvent :=
  if hasInternal v then
    match roomOf v with
    | some code => [ProxyEvent.RoomCode code, ProxyEvent.Log ("Room ID reçue: " ++ code)]
    | none => []
  else []

/-- All events emitted while sniffing one chunk, in record order. -/
def sniffEvents (chunk : List Nat) : List ProxyEvent :=
  (parseStream chunk).flatMap recordEvents

/-- The final value of `forward_message`: `true` iff no parsed record carries
the `internal` marker. -/
def forwardDecision (chunk : List Nat) : Bool :=
  (parseStream chunk).all (fun v => !hasInternal v)

/-- The WebSocket message built for a forwarded chunk:
`Message::Text` when `std::str::from_utf8` succeeds, else `Message::Binary`;
the payload bytes are the chunk either way. -/
def chunkWsMessage (chunk : List Nat) : WsMsg :=
  if utf8Valid chunk then WsMsg.text chunk else WsMsg.binary chunk

/-- The outcome of one loop iteration: events emitted, TCP write-half
operations attempted, WebSocket sends attempted, and whether the iteration
executed `break` (leaving the loop, i.e. entering `Terminated`). -/
structure StepOut where
  events : List ProxyEvent
  tcpOps : List TcpOp
  wsSends : List WsMsg
  brk : Bool
deriving DecidableEq, Repr

/-- Handling of one nonempty TCP chunk (the `Ok(n)` branch with `n > 0`):
sniff every parsable record, emitting room-code events; forward the whole
chunk as one WebSocket message iff no control record was seen; a failed send
logs and breaks.  `sendErr` injects the outcome of `ws_write.send`. -/
def processChunk (chunk : List Nat) (sendErr : Option String) : StepOut :=
  if forwardDecision chunk then
    match sendErr with
    | some e =>
      ⟨sniffEvents chunk ++ [ProxyEvent.Log ("WebSocket send error: " ++ e)], [],
        [chunkWsMessage chunk], true⟩
    | none => ⟨sniffEvents chunk, [], [chunkWsMessage chunk], false⟩
  else ⟨sniffEvents chunk, [], [], false⟩

/- ### WebSocket → TCP framing (`run_proxy_logic`, WS branch). -/

/-- Header bytes `(len as u32).to_be_bytes()`: the length is truncated to 32 bits and laid
out as four big-endian bytes. -/
def u32ToBeBytes (n : Nat) : List Nat :=
  [n % 2 ^ 32 / 2 ^ 24 % 256, n % 2 ^ 32 / 2 ^ 16 % 256, n % 2 ^ 32 / 2 ^ 8 % 256, n % 2 ^ 32 % 256]

/-- Big-endian interpretation of a byte list. -/
def beNat (bs : List Nat) : Nat := bs.foldl (fun a b => a * 256 + b) 0

/-- Handling of one received WebSocket message with payload `data`: empty
payloads are dropped; otherwise write the 4-byte length header, then the
payload, then flush.  `hdrErr`/`dataErr` inject `write_all` failures (log and
break); the `flush` result is discarded by the code (`let _ = ...`), so
`flushErr` affects nothing. -/
def wsMsgStep (data : List Nat) (hdrErr dataErr flushErr : Option String) : StepOut :=
  if data.isEmpty then ⟨[], [], [], false⟩
  else
    match hdrErr with
    | some e =>
      ⟨[ProxyEvent.Log ("TCP write len error: " ++ e)],
        [TcpOp.writeBytes (u32ToBeBytes data.length)], [], true⟩
    | none =>
      match dataErr with
      | some e =>
        ⟨[ProxyEvent.Log ("TCP write data error: " ++ e)],
          [TcpOp.writeBytes (u32ToBeBytes data.length), TcpOp.writeBytes data], [], true⟩
      | none =>
        ⟨[], [TcpOp.writeBytes (u32ToBeBytes data.length), TcpOp.writeBytes data,
          TcpOp.flushTcp], [], false⟩

/-- The wire bytes of one outbound frame: header then payload. -/
def frameBytes (data : List Nat) : List Nat := u32ToBeBytes data.length ++ data

/-- Modelled from the spec: the decode direction of the framing (read the
4-byte header as a big-endian unsigned length, take that many following
bytes).  The code has no standalone decoder — spec §4.2 states decoding is
intentionally absent from the return path — so the decoder is taken from the
claims wording. -/
def decodeFrame (bs : List Nat) : Option (List Nat) :=
  match bs with
  | b0 :: b1 :: b2 :: b3 :: rest =>
    let L := ((b0 * 256 + b1) * 256 + b2) * 256 + b3
    if L ≤ rest.length then some (rest.take L) else none
  | _ => none

/- ### Connection establishment (`run_proxy_logic` before the loop). -/

/-- Outcomes of the four fallible connection steps: `Url::parse`,
`connect_async`, `TcpStream::connect`, `set_nodelay`.  `none` is success,
`some e` failure with error text `e`. -/
structure ConnectConfig where
  urlParse : Option String
  wsConnect : Option String
  tcpConnect : Option String
  nodelay : Option String

/-- The externally visible connection attempts, in the order the code makes
them. -/
inductive ConnectAction where
  | parseUrl
  | wsAttempt
  | tcpAttempt
  | setNodelay
deriving DecidableEq, Repr

/-- Result of the connection phase: events emitted, attempts made in order,
and whether `run_proxy_logic` proceeds to the forwarding loop (`false` means
it returned early). -/
structure ConnectOut where
  events : List ProxyEvent
  actions : List ConnectAction
  ok : Bool
deriving DecidableEq, Repr

/-- The connection phase of `run_proxy_logic`: parse the WebSocket URL,
connect the WebSocket, then connect TCP and try `set_nodelay` (warning only),
each failure logging and returning early. -/
def connectPhase (wsUrl tcpAddr : String) (c : ConnectConfig) : ConnectOut :=
  let e0 := [ProxyEvent.Log ("Connecting to WebSocket at " ++ wsUrl ++ "...")]
  match c.urlParse with
  | some e => ⟨e0 ++ [ProxyEvent.Log ("Invalid URL: " ++ e)], [ConnectAction.parseUrl], false⟩
  | none =>
    match c.wsConnect with
    | some e =>
      ⟨e0 ++ [ProxyEvent.Log ("WebSocket connection failed: " ++ e)],
        [ConnectAction.parseUrl, ConnectAction.wsAttempt], false⟩
    | none =>
      let e1 := e0 ++ [ProxyEvent.Log "[OK] WebSocket Connected",
        ProxyEvent.Log ("Connecting to TCP Server at " ++ tcpAddr ++ "...")]
      match c.tcpConnect with
      | some e =>
        ⟨e1 ++ [ProxyEvent.Log ("TCP connection failed: " ++ e)],
          [ConnectAction.parseUrl, ConnectAction.wsAttempt, ConnectAction.tcpAttempt], false⟩
      | none =>
        let warn :=
          match c.nodelay with
          | some e => [ProxyEvent.Log ("Warning: Failed to set TCP_NODELAY: " ++ e)]
          | none => []
        ⟨e1 ++ warn ++ [ProxyEvent.Log "[OK] TCP Connected. Tunnel active.",
            ProxyEvent.Status "Connected (Active)"],
          [ConnectAction.parseUrl, ConnectAction.wsAttempt, ConnectAction.tcpAttempt,
            ConnectAction.setNodelay], true⟩

/- ### The forwarding loop (`loop { tokio::select! { ... } }`). -/

/-- What the `select!` delivers in one iteration: a WebSocket message (with
injected outcomes for the three TCP write steps), a WebSocket read error, a
TCP read of a chunk (`[]` models `Ok(0)`, peer closed; with the injected
outcome of `ws_write.send`), or a TCP read error. -/
inductive LoopInput where
  | wsMsg (payload : List Nat) (hdrErr dataErr flushErr : Option String)
  | wsReadFail (e : String)
  | tcpChunk (chunk : List Nat) (sendErr : Option String)
  | tcpReadFail (e : String)

/-- One iteration of the forwarding loop. -/
def loopStep : LoopInput → StepOut
  | LoopInput.wsMsg p h d f => wsMsgStep p h d f
  | LoopInput.wsReadFail e =>
    ⟨[ProxyEvent.Log ("WebSocket read error: " ++ e)], [], [], true⟩
  | LoopInput.tcpChunk [] _ =>
    ⟨[ProxyEvent.Log "TCP server closed connection"], [], [], true⟩
  | LoopInput.tcpChunk chunk sendErr => processChunk chunk sendErr
  | LoopInput.tcpReadFail e =>
    ⟨[ProxyEvent.Log ("TCP read error: " ++ e)], [], [], true⟩

/-- Run the loop over a sequence of delivered inputs, accumulating effects;
a `break` ends the loop, ignoring the remaining inputs. -/
def runLoop : List LoopInput → StepOut
  | [] => ⟨[], [], [], false⟩
  | i :: rest =>
    let s := loopStep i
    if s.brk then s
    else
      let r := runLoop rest
      ⟨s.events ++ r.events, s.tcpOps ++ r.tcpOps, s.wsSends ++ r.wsSends, r.brk⟩

/-- A whole run of `run_proxy_logic`: the connection phase, then (only if it
succeeded) the forwarding loop. -/
def runProxyLogic (wsUrl tcpAddr : String) (c : ConnectConfig) (ins : List LoopInput) :
    StepOut :=
  let cp := connectPhase wsUrl tcpAddr c
  if cp.ok then
    let lo := runLoop ins
    ⟨cp.events ++ lo.events, lo.tcpOps, lo.wsSends, lo.brk⟩
  else ⟨cp.events, [], [], false⟩

/-- The events of the whole spawned session task (`start_proxy`):
`run_proxy_logic(..).await` followed by `tx.send(ProxyEvent::Stopped)`. -/
def sessionTaskEvents (wsUrl tcpAddr : String) (c : ConnectConfig) (ins : List LoopInput) :
    List ProxyEvent :=
  (runProxyLogic wsUrl tcpAddr c ins).events ++ [ProxyEvent.Stopped]

/-- The events of a session task cancelled externally (`stop_proxy` calls
`AbortHandle::abort`).  Tokio aborts the task at its current suspension point:
when the abort lands at the `select!` await after `k` completed loop
iterations, the remaining iterations — and the `tx.send(ProxyEvent::Stopped)`
that follows `run_proxy_logic` — never execute. -/
def abortedSessionEvents (wsUrl tcpAddr : String) (c : ConnectConfig) (ins : List LoopInput)
    (k : Nat) : List ProxyEvent :=
  (runProxyLogic wsUrl tcpAddr c (ins.take k)).events

/- ### Concrete test inputs. -/

/-- Byte content of an ASCII string, for concrete test chunks. -/
def asciiBytes (s : String) : List Nat := s.data.map Char.toNat

/-- The room-extraction chunk of spec §8. -/
def chunkRoom : List Nat := asciiBytes "\x7b\"internal\":true,\"room\":\"AB12\"\x7d"

/-- The bytes of the string "hello". -/
def helloBytes : List Nat := asciiBytes "hello"

/- ### Theorems for the claims. -/

/-- C3: a WebSocket message with nonempty payload of length L produces, in
order, a write of the 4-byte big-endian representation of L, a write of the
payload, and a flush, and nothing else; an empty payload produces no TCP
operations at all. -/
theorem ws_message_framed_or_dropped (data : List Nat) (flushErr : Option String)
    (hlen : data.length < 2 ^ 32) :
    (data = [] → (wsMsgStep data none none flushErr).tcpOps = []) ∧
    (data ≠ [] →
      (wsMsgStep data none none flushErr).tcpOps =
        [TcpOp.writeBytes (u32ToBeBytes data.length), TcpOp.writeBytes data, TcpOp.flushTcp] ∧
      beNat (u32ToBeBytes data.length) = data.length ∧
      (u32ToBeBytes data.length).length = 4) := by
  constructor
  · rintro rfl
    rfl
  · intro hne
    refine ⟨?_, ?_, rfl⟩
    · cases data with
      | nil => exact absurd rfl hne
      | cons b bs => rfl
    · simp only [u32ToBeBytes, beNat, List.foldl]
      have h32 : data.length % 2 ^ 32 = data.length := Nat.mod_eq_of_lt hlen
      rw [h32]
      norm_num
      omega

/-- Witness for C3 at the payload "hello": the stream receives
`00 00 00 05 68 65 6C 6C 6F` as header write, payload write, flush. -/
theorem ws_message_framed_or_dropped_witness :
    (wsMsgStep helloBytes none none none).tcpOps =
      [TcpOp.writeBytes (u32ToBeBytes helloBytes.length), TcpOp.writeBytes helloBytes,
        TcpOp.flushTcp] ∧
    beNat (u32ToBeBytes helloBytes.length) = helloBytes.length ∧
    (u32ToBeBytes helloBytes.length).length = 4 :=
  (ws_message_framed_or_dropped helloBytes none (by decide)).2 (by decide)

/-- C4: decoding the wire bytes of an encoded nonempty payload P — reading
the 4-byte header as a big-endian length and taking that many following
bytes — yields exactly P, and the header equals the length of P in
big-endian. -/
theorem framing_roundtrip (P : List Nat) (hne : P ≠ []) (hlen : P.length < 2 ^ 32) :
    decodeFrame (frameBytes P) = some P ∧ beNat (u32ToBeBytes P.length) = P.length := by
  have h32 : P.length % 2 ^ 32 = P.length := Nat.mod_eq_of_lt hlen
  have hbe : beNat (u32ToBeBytes P.length) = P.length := by
    simp only [u32ToBeBytes, beNat, List.foldl]
    rw [h32]
    norm_num
    omega
  refine ⟨?_, hbe⟩
  have hL : ((P.length % 2 ^ 32 / 2 ^ 24 % 256 * 256 + P.length % 2 ^ 32 / 2 ^ 16 % 256) * 256 +
      P.length % 2 ^ 32 / 2 ^ 8 % 256) * 256 + P.length % 2 ^ 32 % 256 = P.length := by
    rw [h32]
    norm_num
    omega
  simp only [frameBytes, u32ToBeBytes, List.cons_append, List.nil_append, decodeFrame, hL]
  simp [List.take_length]

/-- Witness for C4 at the payload "hello". -/
theorem framing_roundtrip_witness :
    decodeFrame (frameBytes helloBytes) = some helloBytes ∧
    beNat (u32ToBeBytes helloBytes.length) = helloBytes.length :=
  framing_roundtrip helloBytes (by decide) (by decide)

/-- C5: the chunk consisting solely of the bytes of
`\x7b"internal":true,"room":"AB12"\x7d` produces exactly the two events
`RoomCode "AB12"` then the log line, and no WebSocket message is sent. -/
theorem room_extraction :
    (processChunk chunkRoom none).events =
      [ProxyEvent.RoomCode "AB12", ProxyEvent.Log "Room ID reçue: AB12"] ∧
    (processChunk chunkRoom none).wsSends = [] := by decide

/-- C7 counterexample: a failing flush after successful header and payload
writes is silently swallowed (`let _ = tcp_write.flush().await;`): the
iteration emits no Log event and does not leave the loop, contradicting the
claim that every failure of the three write steps logs and terminates. -/
theorem flush_failure_ignored :
    (loopStep (LoopInput.wsMsg (asciiBytes "hi") none none (some "broken pipe"))).events = [] ∧
    (loopStep (LoopInput.wsMsg (asciiBytes "hi") none none (some "broken pipe"))).brk = false := by
  decide

/-- C7 amended: in the WebSocket-to-TCP direction, a failure of the
length-header write or of the payload write emits the corresponding Log event
and terminates the loop; a flush failure is ignored — its result is
discarded, no event is emitted and the loop continues. -/
theorem write_failures_log_and_terminate (p : List Nat) (e : String) (d f : Option String)
    (hp : p ≠ []) :
    ((wsMsgStep p (some e) d f).events = [ProxyEvent.Log ("TCP write len error: " ++ e)] ∧
      (wsMsgStep p (some e) d f).brk = true) ∧
    ((wsMsgStep p none (some e) f).events = [ProxyEvent.Log ("TCP write data error: " ++ e)] ∧
      (wsMsgStep p none (some e) f).brk = true) ∧
    ((wsMsgStep p none none (some e)).events = [] ∧
      (wsMsgStep p none none (some e)).brk = false) := by
  cases p with
  | nil => exact absurd rfl hp
  | cons b bs => exact ⟨⟨rfl, rfl⟩, ⟨rfl, rfl⟩, rfl, rfl⟩

/-- Witness for the amended C7 at a one-byte payload and the error text
"broken pipe". -/
theorem write_failures_log_and_terminate_witness :
    ((wsMsgStep [104] (some "broken pipe") none none).events =
        [ProxyEvent.Log ("TCP write len error: " ++ "broken pipe")] ∧
      (wsMsgStep [104] (some "broken pipe") none none).brk = true) ∧
    ((wsMsgStep [104] none (some "broken pipe") none).events =
        [ProxyEvent.Log ("TCP write data error: " ++ "broken pipe")] ∧
      (wsMsgStep [104] none (some "broken pipe") none).brk = true) ∧
    ((wsMsgStep [104] none none (some "broken pipe")).events = [] ∧
      (wsMsgStep [104] none none (some "broken pipe")).brk = false) :=
  write_failures_log_and_terminate [104] "broken pipe" none none (by decide)

/-- C8: the connection phase parses the URL and attempts the WebSocket first,
attempts TCP only after the WebSocket succeeded, treats each of the three
failure modes as terminal with the corresponding Log event reported last
before the early return, and on TCP success attempts low-latency mode, a
failure of which is logged as a warning while the phase still succeeds. -/
theorem connect_sequencing_and_error_reporting (w t e : String) (c : ConnectConfig) :
    (c.urlParse = some e →
      connectPhase w t c =
        ⟨[ProxyEvent.Log ("Connecting to WebSocket at " ++ w ++ "..."),
            ProxyEvent.Log ("Invalid URL: " ++ e)],
          [ConnectAction.parseUrl], false⟩) ∧
    (c.urlParse = none → c.wsConnect = some e →
      connectPhase w t c =
        ⟨[ProxyEvent.Log ("Connecting to WebSocket at " ++ w ++ "..."),
            ProxyEvent.Log ("WebSocket connection failed: " ++ e)],
          [ConnectAction.parseUrl, ConnectAction.wsAttempt], false⟩) ∧
    (c.urlParse = none → c.wsConnect = none → c.tcpConnect = some e →
      connectPhase w t c =
        ⟨[ProxyEvent.Log ("Connecting to WebSocket at " ++ w ++ "..."),
            ProxyEvent.Log "[OK] WebSocket Connected",
            ProxyEvent.Log ("Connecting to TCP Server at " ++ t ++ "..."),
            ProxyEvent.Log ("TCP connection failed: " ++ e)],
          [ConnectAction.parseUrl, ConnectAction.wsAttempt, ConnectAction.tcpAttempt],
          false⟩) ∧
    (c.urlParse = none → c.wsConnect = none → c.tcpConnect = none →
      (connectPhase w t c).ok = true ∧
      (connectPhase w t c).actions =
        [ConnectAction.parseUrl, ConnectAction.wsAttempt, ConnectAction.tcpAttempt,
          ConnectAction.setNodelay] ∧
      (c.nodelay = some e →
        ProxyEvent.Log ("Warning: Failed to set TCP_NODELAY: " ++ e) ∈
          (connectPhase w t c).events)) := by
  obtain ⟨u, ws, tc, nd⟩ := c
  refine ⟨?_, ?_, ?_, ?_⟩
  · rintro rfl
    rfl
  · rintro rfl rfl
    rfl
  · rintro rfl rfl rfl
    rfl
  · rintro rfl rfl rfl
    refine ⟨?_, ?_, ?_⟩
    · cases nd <;> rfl
    · cases nd <;> rfl
    · rintro rfl
      simp [connectPhase]

/-- Witness for C8: with a successful URL parse and a failing WebSocket
handshake, the phase stops after the WebSocket attempt, never attempts TCP,
and reports the handshake failure as its final Log event. -/
theorem connect_sequencing_and_error_reporting_witness :
    connectPhase "ws://localhost:4455" "127.0.0.1:9000" ⟨none, some "refused", none, none⟩ =
      ⟨[ProxyEvent.Log ("Connecting to WebSocket at " ++ "ws://localhost:4455" ++ "..."),
          ProxyEvent.Log ("WebSocket connection failed: " ++ "refused")],
        [ConnectAction.parseUrl, ConnectAction.wsAttempt], false⟩ :=
  (connect_sequencing_and_error_reporting "ws://localhost:4455" "127.0.0.1:9000" "refused"
    ⟨none, some "refused", none, none⟩).2.1 rfl rfl

/- ### No event emitted by `run_proxy_logic` is `Stopped` (helper chain for
   the terminal-event claim). -/

/-- The per-record sniffing events never include `Stopped`. -/
theorem stopped_notin_recordEvents (v : Json) :
    ProxyEvent.Stopped ∉ recordEvents v := by
  cases hI : hasInternal v <;> simp only [recordEvents, hI]
  · simp
  · cases hr : roomOf v <;> simp

/-- The sniffing events of a chunk never include `Stopped`. -/
theorem stopped_notin_sniffEvents (chunk : List Nat) :
    ProxyEvent.Stopped ∉ sniffEvents chunk := by
  intro hmem
  rcases List.mem_flatMap.mp hmem with ⟨v, _, hv⟩
  exact stopped_notin_recordEvents v hv

/-- Processing a chunk never emits `Stopped`. -/
theorem stopped_notin_processChunk (chunk : List Nat) (sendErr : Option String) :
    ProxyEvent.Stopped ∉ (processChunk chunk sendErr).events := by
  have hs := stopped_notin_sniffEvents chunk
  unfold processChunk
  split
  · cases sendErr with
    | none => simpa using hs
    | some e => simp [hs]
  · simpa using hs

/-- Handling a WebSocket message never emits `Stopped`. -/
theorem stopped_notin_wsMsgStep (p : List Nat) (h d f : Option String) :
    ProxyEvent.Stopped ∉ (wsMsgStep p h d f).events := by
  unfold wsMsgStep
  split
  · simp
  · cases h with
    | some e => simp
    | none => cases d <;> simp

/-- No single loop iteration emits `Stopped`. -/
theorem stopped_notin_loopStep (i : LoopInput) :
    ProxyEvent.Stopped ∉ (loopStep i).events := by
  cases i with
  | wsMsg p h d f => exact stopped_notin_wsMsgStep p h d f
  | wsReadFail e => simp [loopStep]
  | tcpChunk chunk s =>
    cases chunk with
    | nil => simp [loopStep]
    | cons b bs => exact stopped_notin_processChunk (b :: bs) s
  | tcpReadFail e => simp [loopStep]

/-- The whole forwarding loop never emits `Stopped`. -/
theorem stopped_notin_runLoop (ins : List LoopInput) :
    ProxyEvent.Stopped ∉ (runLoop ins).events := by
  induction ins with
  | nil => simp [runLoop]
  | cons i rest ih =>
    simp only [runLoop]
    split
    · exact stopped_notin_loopStep i
    · intro hmem
      rcases List.mem_append.mp hmem with hmem | hmem
      · exact stopped_notin_loopStep i hmem
      · exact ih hmem

/-- The connection phase never emits `Stopped`. -/
theorem stopped_notin_connectPhase (w t : String) (c : ConnectConfig) :
    ProxyEvent.Stopped ∉ (connectPhase w t c).events := by
  obtain ⟨u, ws, tc, nd⟩ := c
  cases u <;> cases ws <;> cases tc <;> cases nd <;> simp [connectPhase]

/-- `run_proxy_logic` itself never emits `Stopped` on any path. -/
theorem stopped_notin_runProxyLogic (w t : String) (c : ConnectConfig)
    (ins : List LoopInput) :
    ProxyEvent.Stopped ∉ (runProxyLogic w t c ins).events := by
  by_cases hok : (connectPhase w t c).ok = true
  · simp only [runProxyLogic, hok, if_true]
    intro hmem
    rcases List.mem_append.mp hmem with hmem | hmem
    · exact stopped_notin_connectPhase w t c hmem
    · exact stopped_notin_runLoop ins hmem
  · simp only [runProxyLogic, if_neg hok]
    exact stopped_notin_connectPhase w t c

/-- C6 counterexample: under external cancellation (`stop_proxy` aborts the
spawned task; tokio cancels it at its current suspension point, so the
`tx.send(ProxyEvent::Stopped)` placed after `run_proxy_logic(..).await`
never executes), a session that connected successfully and completed one
forwarding iteration before the abort emits zero `Stopped` events — not
exactly one as the claim requires on every termination path. -/
theorem stopped_missing_under_cancellation :
    (abortedSessionEvents "ws://localhost:4455" "127.0.0.1:9000" ⟨none, none, none, none⟩
        [LoopInput.wsMsg (asciiBytes "hi") none none none] 1).count ProxyEvent.Stopped = 0 := by
  decide

/-- C6 amended: whenever `run_proxy_logic` returns — that is, on every
internal termination path — the session task emits exactly one `Stopped`
event, appended by the spawning caller after the loop exits, and no event
follows it; under external cancellation, however, the aborted task emits no
`Stopped` event at all. -/
theorem stopped_once_and_last_when_uncancelled (w t : String) (c : ConnectConfig)
    (ins : List LoopInput) :
    (sessionTaskEvents w t c ins).count ProxyEvent.Stopped = 1 ∧
    (sessionTaskEvents w t c ins).getLast? = some ProxyEvent.Stopped ∧
    ∀ k, (abortedSessionEvents w t c ins k).count ProxyEvent.Stopped = 0 := by
  refine ⟨?_, ?_, ?_⟩
  · rw [sessionTaskEvents, List.count_append,
      List.count_eq_zero_of_not_mem (stopped_notin_runProxyLogic w t c ins)]
    decide
  · rw [sessionTaskEvents]
    exact List.getLast?_concat _
  · intro k
    exact List.count_eq_zero_of_not_mem (stopped_notin_runProxyLogic w t c (ins.take k))

end TrouDeVer
